import Mathlib

/-!
Verification of the Pradon quote bot (src/main.py).

The Python program is shallowly embedded: Python strings become `List Char`,
Python's `str.lower` becomes a character-wise ASCII lowering, Python's
`in` substring test becomes the executable `pyIn`, and the module constants
`QUOTES`, `KEYWORDS` and `DONT_COMMENT_KEYWORD` are transliterated verbatim.
Fallible or effectful pieces (the random quote draw, the reply and
mark-as-read side effects, the supervising restart loop) are modelled with
`Option`, explicit effect records, and an explicit iteration counter.
-/

namespace PradonBot

/-- Python `str`, modelled as a list of characters. -/
abbrev PyStr := List Char

/-- Character-wise model of Python `str.lower` on the ASCII range:
uppercase letters `A`-`Z` (codes 65-90) map to the corresponding lowercase
letter (code + 32); every other character is unchanged. -/
def pyLowerChar (c : Char) : Char :=
  if 65 ≤ c.toNat ∧ c.toNat ≤ 90 then Char.ofNat (c.toNat + 32) else c

/-- Model of Python `str.lower` (`text.lower()`), applied character-wise. -/
def pyLower (s : PyStr) : PyStr := s.map pyLowerChar

/-- The 32 characters of Python's `string.punctuation` constant, in order. -/
def pyPunctuation : PyStr :=
  "!\x22#$%&\x27()*+,-./:;<=>?@[\\]^_\x60\x7b|\x7d~".data

/-- Does `needle` occur at the very start of `hay`?  (Helper for `pyIn`.) -/
def pyStartsWith : PyStr → PyStr → Bool
  | [], _ => true
  | _ :: _, [] => false
  | a :: as, b :: bs => a == b && pyStartsWith as bs

/-- Model of Python's substring test `needle in hay`: `needle` occurs as a
contiguous substring of `hay` (the empty needle occurs in every string). -/
def pyIn (needle : PyStr) : PyStr → Bool
  | [] => needle.isEmpty
  | c :: rest => pyStartsWith needle (c :: rest) || pyIn needle rest

/-- Declarative substring occurrence: `hay` splits as `pre ++ needle ++ post`. -/
def OccursIn (needle hay : PyStr) : Prop :=
  ∃ pre post, hay = pre ++ needle ++ post

/-- The module constant `QUOTES` of src/main.py, transliterated verbatim. -/
def QUOTES : List PyStr :=
  [ "We are the creators of our own reality, the architects of our own destiny.".data,
    "The soul, like the mind, is never truly free until it has reconciled itself with the uncertainties of existence.".data,
    "In every moment, we must choose between despair and hope, for it is only through choice that we find meaning.".data,
    "The true path to wisdom is not through reason alone, but through the balance of emotion and intellect.".data,
    "Life does not follow the rules of logic; it unfolds in mysterious and unpredictable ways, challenging us to adapt.".data,
    "To be human is to be constantly in conflict with the world, yet also to find beauty within that struggle.".data,
    "It is not enough to seek answers; we must embrace the questions that lead us to deeper understanding.".data,
    "Freedom is not given to us, it is something we must claim for ourselves.".data,
    "We are all part of a greater story, one that transcends our individual lives and connects us to something far more profound.".data,
    "True power lies in the ability to shape the world around us, but even more so in the capacity to shape our own thoughts.".data ]

/-- The module constant `KEYWORDS` of src/main.py.  The Python value is a
`set`; iteration order is irrelevant to every use (an any-of check), so it
is modelled as a list in source order. -/
def KEYWORDS : List PyStr :=
  ["reality".data, "soul".data, "wisdom".data, "life".data,
   "human".data, "freedom".data, "power".data]

/-- The module constant `DONT_COMMENT_KEYWORD = "!nopost"` of src/main.py. -/
def DONT_COMMENT_KEYWORD : PyStr := "!nopost".data

/-- `standardize_text` of src/main.py:
`text.lower().translate(str.maketrans("", "", string.punctuation))`, i.e.
lowercase the text, then delete every `string.punctuation` character. -/
def standardize_text (text : PyStr) : PyStr :=
  (pyLower text).filter (fun c => !(pyPunctuation.contains c))

/-- `should_comment_on_comment` of src/main.py, as a function of the
comment's `body` field: return `False` when the lowered opt-out marker
occurs in the lowered body, else return whether some keyword occurs in the
standardized body. -/
def should_comment_on_comment (commentBody : PyStr) : Bool :=
  if pyIn (pyLower DONT_COMMENT_KEYWORD) (pyLower commentBody) then false
  else
    let body := standardize_text commentBody
    KEYWORDS.any (fun keyword => pyIn keyword body)

/-- `should_comment_on_post` of src/main.py, as a function of the post's
`selftext` and `title` fields: return `False` when the lowered opt-out
marker occurs in either lowered raw field, else return whether some keyword
occurs in the standardized selftext or the standardized title. -/
def should_comment_on_post (selftext title : PyStr) : Bool :=
  if pyIn (pyLower DONT_COMMENT_KEYWORD) (pyLower selftext)
      || pyIn (pyLower DONT_COMMENT_KEYWORD) (pyLower title) then false
  else
    let body := standardize_text selftext
    let title2 := standardize_text title
    KEYWORDS.any (fun keyword => pyIn keyword body || pyIn keyword title2)

/-- Model of `random.choice(l)` given the randomness `r`: pick the element
at index `r % l.length`; `none` exactly when the list is empty (Python
raises `IndexError` there). -/
def random_choice {α : Type} (l : List α) (r : Nat) : Option α :=
  l.get? (r % l.length)

/-- The fixed attribution footer appended by `write_comment` of src/main.py:
`"\n\n[^(source)](https://www.reddit.com/user/" + USERNAME + ")"`. -/
def footer_text (username : PyStr) : PyStr :=
  "\n\n[^(source)](https://www.reddit.com/user/".data ++ username ++ ")".data

/-- The reply text composed by `write_comment` of src/main.py:
a quote drawn by `random.choice(QUOTES)` followed by the attribution
footer.  `r` is the randomness consumed by the draw; `username` is the
configured `USERNAME`. -/
def write_comment_text (r : Nat) (username : PyStr) : Option PyStr :=
  (random_choice QUOTES r).map (fun quote => quote ++ footer_text username)

/-- The comment-stream loop body of `iterate_comments` of src/main.py,
iterated over a finite prefix of the stream: returns, in stream order, the
comments that receive a reply (`write_comment` is called exactly on those
for which `should_comment_on_comment` returns `True`). -/
def iterate_comments_run : List PyStr → List PyStr
  | [] => []
  | comment :: rest =>
    if should_comment_on_comment comment then
      comment :: iterate_comments_run rest
    else
      iterate_comments_run rest

/-- The post-stream loop body of `iterate_posts` of src/main.py, iterated
over a finite prefix of the stream of `(selftext, title)` pairs: returns,
in stream order, the posts that receive a reply. -/
def iterate_posts_run : List (PyStr × PyStr) → List (PyStr × PyStr)
  | [] => []
  | post :: rest =>
    if should_comment_on_post post.1 post.2 then
      post :: iterate_posts_run rest
    else
      iterate_posts_run rest

/-- An inbox item seen by `listen_and_process_mentions` of src/main.py:
its `subject`, its `body`, and whether `isinstance(message, Comment)`. -/
structure InboxMessage where
  subject : PyStr
  body : PyStr
  isComment : Bool
  deriving DecidableEq

/-- The external side effects performed for one inbox item: whether
`write_comment` (a reply) was issued and whether `mark_read` was called. -/
structure MentionEffects where
  replied : Bool
  markedRead : Bool
  deriving DecidableEq

/-- The loop body of `listen_and_process_mentions` of src/main.py for one
inbox item: standardize the subject; when it equals `"username mention"`
and the item is a comment, reply and mark the item read; otherwise do
nothing. -/
def listen_mentions_body (message : InboxMessage) : MentionEffects :=
  let subject := standardize_text message.subject
  if subject = "username mention".data ∧ message.isComment = true then
    { replied := true, markedRead := true }
  else
    { replied := false, markedRead := false }

/-- Outcome of one invocation of a supervised handler: it either returns
normally or raises an exception of type `E` (the `Exception` class caught
by the `except` clause of `restart`). -/
inductive PyOutcome (E : Type) where
  | ok : PyOutcome E
  | raises : E → PyOutcome E

/-- State of the `while True` loop inside `restart`'s `wrapped_handler`:
how many times the wrapped handler has been invoked so far, and the log of
exceptions caught by the `except` clause, in order. -/
structure RestartState (E : Type) where
  invocations : Nat
  log : List E

/-- One iteration of the `while True` loop of `wrapped_handler` in
`restart` of src/main.py.  The handler's behaviour on its `k`-th
invocation is given by `handler k`.  The `try` block invokes the handler;
the `except Exception` clause catches a raised exception, logs it, and
falls through to the next loop iteration — so both branches continue the
loop normally (`Except.ok`); no branch propagates (`Except.error`). -/
def restart_loop_body {E : Type} (handler : Nat → PyOutcome E)
    (s : RestartState E) : Except E (RestartState E) :=
  match handler s.invocations with
  | .ok => .ok { s with invocations := s.invocations + 1 }
  | .raises e => .ok { invocations := s.invocations + 1, log := s.log ++ [e] }

/-- The first `n` iterations of `wrapped_handler`'s loop, propagating any
exception that would escape an iteration. -/
def restart_run {E : Type} (handler : Nat → PyOutcome E) : Nat → Except E (RestartState E)
  | 0 => .ok { invocations := 0, log := [] }
  | n + 1 =>
    match restart_run handler n with
    | .ok s => restart_loop_body handler s
    | .error e => .error e

/-- The exceptions raised by the first `n` invocations of the handler, in
order (the log the `except` clause of `restart` accumulates). -/
def restart_log {E : Type} (handler : Nat → PyOutcome E) : Nat → List E
  | 0 => []
  | n + 1 =>
    restart_log handler n ++
      (match handler n with
       | .ok => []
       | .raises e => [e])

/-! ### Helper lemmas -/

/-- `pyStartsWith` agrees with the declarative prefix property. -/
theorem pyStartsWith_iff (needle hay : PyStr) :
    pyStartsWith needle hay = true ↔ ∃ t, hay = needle ++ t := by
  induction needle generalizing hay with
  | nil => simp [pyStartsWith]
  | cons a as ih =>
    cases hay with
    | nil => simp [pyStartsWith]
    | cons b bs =>
      simp only [pyStartsWith, Bool.and_eq_true, beq_iff_eq, ih,
        List.cons_append, List.cons.injEq]
      constructor
      · rintro ⟨hab, t, ht⟩
        exact ⟨t, hab.symm, ht⟩
      · rintro ⟨t, hb, ht⟩
        exact ⟨hb.symm, t, ht⟩

/-- `pyIn` agrees with the declarative substring-occurrence property. -/
theorem pyIn_iff (needle hay : PyStr) :
    pyIn needle hay = true ↔ OccursIn needle hay := by
  induction hay with
  | nil =>
    constructor
    · intro h
      have hn : needle = [] := by simpa [pyIn, List.isEmpty_iff] using h
      exact ⟨[], [], by simp [hn]⟩
    · rintro ⟨pre, post, h⟩
      have h2 := h.symm
      rw [List.append_assoc, List.append_eq_nil] at h2
      rw [List.append_eq_nil] at h2
      simp [pyIn, List.isEmpty_iff, h2.2.1]
  | cons c cs ih =>
    constructor
    · intro h
      rcases Bool.or_eq_true _ _ |>.mp h with hs | hin
      · rcases (pyStartsWith_iff needle (c :: cs)).mp hs with ⟨t, ht⟩
        exact ⟨[], t, by simpa using ht⟩
      · rcases ih.mp hin with ⟨pre, post, hcs⟩
        exact ⟨c :: pre, post, by simp [hcs]⟩
    · rintro ⟨pre, post, h⟩
      show (pyStartsWith needle (c :: cs) || pyIn needle cs) = true
      rcases pre with _ | ⟨p, pre2⟩
      · rw [Bool.or_eq_true]
        exact Or.inl ((pyStartsWith_iff needle (c :: cs)).mpr ⟨post, by simpa using h⟩)
      · rw [Bool.or_eq_true]
        refine Or.inr (ih.mpr ⟨pre2, post, ?_⟩)
        have := h
        simp only [List.cons_append, List.cons.injEq] at this
        exact this.2

/-- Round trip for `Char.ofNat` below the surrogate range. -/
theorem char_toNat_ofNat_lt (n : Nat) (h : n < 55296) : (Char.ofNat n).toNat = n := by
  have hv : n.isValidChar := Or.inl h
  unfold Char.ofNat
  rw [dif_pos hv]
  rfl

/-- The result of `pyLowerChar` is never an uppercase ASCII letter. -/
theorem pyLowerChar_not_upper (c : Char) :
    ¬(65 ≤ (pyLowerChar c).toNat ∧ (pyLowerChar c).toNat ≤ 90) := by
  unfold pyLowerChar
  by_cases h : 65 ≤ c.toNat ∧ c.toNat ≤ 90
  · rw [if_pos h, char_toNat_ofNat_lt (c.toNat + 32) (by omega)]
    omega
  · rw [if_neg h]
    exact h

/-- `pyLowerChar` fixes any character that is not an uppercase ASCII letter. -/
theorem pyLowerChar_eq_self (c : Char)
    (h : ¬(65 ≤ c.toNat ∧ c.toNat ≤ 90)) : pyLowerChar c = c :=
  if_neg h

/-- `pyLowerChar` is idempotent. -/
theorem pyLowerChar_idem (c : Char) :
    pyLowerChar (pyLowerChar c) = pyLowerChar c :=
  pyLowerChar_eq_self _ (pyLowerChar_not_upper c)

/-- Counting in a filtered list. -/
theorem count_filter_eq (p : Char → Bool) (l : List Char) (a : Char) :
    (l.filter p).count a = if p a = true then l.count a else 0 := by
  by_cases h : p a = true
  · rw [if_pos h, List.count_filter h]
  · rw [if_neg h]
    exact List.count_eq_zero.mpr (fun hm => h (List.of_mem_filter hm))

/-- The restart loop after `n` iterations: no exception has propagated, the
handler has been invoked `n` times, and the log is `restart_log`. -/
theorem restart_run_eq {E : Type} (handler : Nat → PyOutcome E) (n : Nat) :
    restart_run handler n =
      Except.ok { invocations := n, log := restart_log handler n } := by
  induction n with
  | zero => rfl
  | succ n ih =>
    simp only [restart_run, ih, restart_loop_body, restart_log]
    cases handler n <;> simp

/-- When the handler raises on each of its first `n` invocations, the log
after `n` iterations has exactly `n` entries. -/
theorem restart_log_length_of_raises {E : Type} (handler : Nat → PyOutcome E)
    (n : Nat) (h : ∀ k, k < n → ∃ e, handler k = PyOutcome.raises e) :
    (restart_log handler n).length = n := by
  induction n with
  | zero => rfl
  | succ n ih =>
    rcases h n (Nat.lt_succ_self n) with ⟨e, he⟩
    simp only [restart_log, List.length_append, he,
      ih (fun k hk => h k (Nat.lt_succ_of_lt hk))]
    rfl

/-! ### Claim theorems -/

/-- Claim C2: the wrapped function produced by `restart` catches every
exception the handler raises, logs it, and immediately re-invokes the
handler, forever; if the handler raises on each of its first `N`
invocations, then after `N + 1` loop iterations the handler has been
invoked `N + 1` times, at least `N` exceptions have been logged, and no
exception has propagated to the caller (the run is still `Except.ok`). -/
theorem restart_catches_and_reinvokes {E : Type} (handler : Nat → PyOutcome E)
    (N : Nat) (h : ∀ k, k < N → ∃ e, handler k = PyOutcome.raises e) :
    ∃ s, restart_run handler (N + 1) = Except.ok s ∧
      s.invocations = N + 1 ∧ N ≤ s.log.length := by
  refine ⟨_, restart_run_eq handler (N + 1), rfl, ?_⟩
  show N ≤ (restart_log handler (N + 1)).length
  have hN : (restart_log handler N).length = N :=
    restart_log_length_of_raises handler N h
  simp only [restart_log, List.length_append, hN]
  exact Nat.le_add_right N _

/-- Witness for claim C2: a handler that raises on every invocation has,
after three loop iterations, been invoked three times with two or more
logged exceptions, and the run has not propagated any exception. -/
theorem restart_catches_witness :
    ∃ s, restart_run (fun _ => PyOutcome.raises 0) 3 = Except.ok s ∧
      s.invocations = 3 ∧ 2 ≤ s.log.length :=
  restart_catches_and_reinvokes (fun _ => PyOutcome.raises 0) 2
    (fun _ _ => ⟨0, rfl⟩)

/-- Claim C7: `standardize_text` is idempotent. -/
theorem standardize_text_idempotent (s : PyStr) :
    standardize_text (standardize_text s) = standardize_text s := by
  have hmem : ∀ c ∈ standardize_text s, pyLowerChar c = c := by
    intro c hc
    have hc2 : c ∈ pyLower s := List.mem_of_mem_filter hc
    rcases List.mem_map.mp hc2 with ⟨b, _, hb⟩
    rw [← hb]
    exact pyLowerChar_idem b
  have hp : ∀ c ∈ standardize_text s, (!(pyPunctuation.contains c)) = true := by
    intro c hc
    have hc2 : c ∈ (pyLower s).filter (fun c => !(pyPunctuation.contains c)) := hc
    exact (List.mem_filter.mp hc2).2
  have hlow : pyLower (standardize_text s) = standardize_text s := by
    show (standardize_text s).map pyLowerChar = standardize_text s
    calc (standardize_text s).map pyLowerChar
        = (standardize_text s).map id := List.map_congr_left hmem
      _ = standardize_text s := List.map_id _
  show (pyLower (standardize_text s)).filter _ = standardize_text s
  rw [hlow]
  exact List.filter_eq_self.mpr hp

/-- Claim C10: every keyword in `KEYWORDS` is a fixed point of
`standardize_text` (each keyword is entirely lowercase and free of
punctuation), so normalization never alters a keyword. -/
theorem keywords_fixed_points (k : PyStr) (hk : k ∈ KEYWORDS) :
    standardize_text k = k := by
  revert k
  decide

/-- Witness for claim C10 at the keyword `life`. -/
theorem keywords_fixed_points_witness :
    "life".data ∈ KEYWORDS ∧ standardize_text "life".data = "life".data :=
  ⟨by decide, keywords_fixed_points "life".data (by decide)⟩

/-- Claim C5: `standardize_text` returns the lowercased input with every
punctuation character removed: the result is an order-preserving
subsequence of the lowered input, a character is kept with its exact
multiplicity when it is not punctuation and dropped entirely when it is,
and the empty string maps to the empty string (the function is a total
pure function of its input). -/
theorem standardize_text_spec (s : PyStr) :
    List.Sublist (standardize_text s) (pyLower s) ∧
    (∀ c : Char, (standardize_text s).count c =
      if c ∈ pyPunctuation then 0 else (pyLower s).count c) ∧
    standardize_text ([] : PyStr) = [] := by
  refine ⟨List.filter_sublist _, fun c => ?_, rfl⟩
  have hst : standardize_text s =
      (pyLower s).filter (fun c => !(pyPunctuation.contains c)) := rfl
  rw [hst, count_filter_eq]
  by_cases h : c ∈ pyPunctuation
  · have hc : pyPunctuation.contains c = true := List.elem_iff.mpr h
    simp [hc, h]
  · have hc : ¬(pyPunctuation.contains c = true) :=
      fun hct => h (List.elem_iff.mp hct)
    simp [hc, h]

/-- Claim C9: `QUOTES` is a fixed non-empty sequence (ten entries, never
mutated anywhere in the embedding, where it is a constant), so the random
draw of `write_comment` is always defined: for every randomness value the
choice yields an element of `QUOTES`. -/
theorem quotes_nonempty_choice_defined :
    QUOTES.length = 10 ∧ QUOTES ≠ [] ∧
    ∀ r : Nat, ∃ q, random_choice QUOTES r = some q ∧ q ∈ QUOTES := by
  refine ⟨rfl, by decide, fun r => ?_⟩
  have hlen : r % QUOTES.length < QUOTES.length := Nat.mod_lt _ (by decide)
  exact ⟨QUOTES.get ⟨r % QUOTES.length, hlen⟩,
    List.get?_eq_get hlen, List.get_mem _ _ _⟩

/-- Claim C1: the trigger policy returns `true` exactly when the lowered
opt-out marker does not occur in any lowered raw field and some keyword
occurs as a substring of some standardized field; the opt-out check takes
precedence, and a keyword inside a longer word counts (`life` inside
`lifestyle`). -/
theorem trigger_policy_spec :
    (∀ body : PyStr, should_comment_on_comment body = true ↔
      (¬ OccursIn (pyLower DONT_COMMENT_KEYWORD) (pyLower body) ∧
        ∃ k, k ∈ KEYWORDS ∧ OccursIn k (standardize_text body))) ∧
    (∀ selftext title : PyStr, should_comment_on_post selftext title = true ↔
      ((¬ OccursIn (pyLower DONT_COMMENT_KEYWORD) (pyLower selftext) ∧
        ¬ OccursIn (pyLower DONT_COMMENT_KEYWORD) (pyLower title)) ∧
        ∃ k, k ∈ KEYWORDS ∧
          (OccursIn k (standardize_text selftext) ∨
            OccursIn k (standardize_text title)))) ∧
    should_comment_on_comment "new lifestyle tips".data = true := by
  refine ⟨fun body => ?_, fun selftext title => ?_, by decide⟩
  · by_cases h : pyIn (pyLower DONT_COMMENT_KEYWORD) (pyLower body) = true
    · have ho := (pyIn_iff _ _).mp h
      simp [should_comment_on_comment, h, ho]
    · have hno : ¬ OccursIn (pyLower DONT_COMMENT_KEYWORD) (pyLower body) :=
        fun ho => h ((pyIn_iff _ _).mpr ho)
      simp [should_comment_on_comment, h, hno, List.any_eq_true, pyIn_iff]
  · by_cases h : (pyIn (pyLower DONT_COMMENT_KEYWORD) (pyLower selftext)
        || pyIn (pyLower DONT_COMMENT_KEYWORD) (pyLower title)) = true
    · rcases Bool.or_eq_true _ _ |>.mp h with h1 | h1
      · have ho := (pyIn_iff _ _).mp h1
        simp [should_comment_on_post, h1, ho]
      · have ho := (pyIn_iff _ _).mp h1
        simp [should_comment_on_post, h1, ho]
    · rw [Bool.or_eq_true] at h
      push_neg at h
      have hno1 : ¬ OccursIn (pyLower DONT_COMMENT_KEYWORD) (pyLower selftext) :=
        fun ho => h.1 ((pyIn_iff _ _).mpr ho)
      have hno2 : ¬ OccursIn (pyLower DONT_COMMENT_KEYWORD) (pyLower title) :=
        fun ho => h.2 ((pyIn_iff _ _).mpr ho)
      simp [should_comment_on_post, h.1, h.2, hno1, hno2,
        List.any_eq_true, pyIn_iff]

/-- Witness for claim C1: a body containing the keyword `reality` and no
opt-out marker triggers a comment. -/
theorem trigger_policy_witness :
    should_comment_on_comment "Reality is fragile".data = true :=
  (trigger_policy_spec.1 "Reality is fragile".data).mpr
    ⟨fun ho => absurd ((pyIn_iff _ _).mpr ho) (by decide),
     "reality".data, by decide, (pyIn_iff _ _).mp (by decide)⟩

/-- Counterexample for claim C3: an inbox item whose body contains the
opt-out marker `!nopost` but whose subject is `username mention` and which
is a comment still receives a reply from the mentions watcher — the
mentions loop never consults the marker. -/
theorem optout_mentions_counterexample :
    OccursIn DONT_COMMENT_KEYWORD "a human life !nopost".data ∧
    (listen_mentions_body
      ⟨"username mention".data, "a human life !nopost".data, true⟩).replied = true :=
  ⟨(pyIn_iff _ _).mp (by decide), by decide⟩

/-- Claim C3 (amended): in the posts and comments watchers, presence of the
opt-out marker in any raw field suppresses any reply regardless of
keywords; the mentions watcher, however, ignores the item's body entirely
(so the marker does not suppress replies to username mentions). -/
theorem optout_suppresses_amended :
    (∀ body : PyStr, OccursIn (pyLower DONT_COMMENT_KEYWORD) (pyLower body) →
      should_comment_on_comment body = false) ∧
    (∀ selftext title : PyStr,
      OccursIn (pyLower DONT_COMMENT_KEYWORD) (pyLower selftext) ∨
        OccursIn (pyLower DONT_COMMENT_KEYWORD) (pyLower title) →
      should_comment_on_post selftext title = false) ∧
    (∀ subject body1 body2 : PyStr, ∀ isC : Bool,
      listen_mentions_body ⟨subject, body1, isC⟩ =
        listen_mentions_body ⟨subject, body2, isC⟩) := by
  refine ⟨fun body ho => ?_, fun selftext title ho => ?_,
    fun subject b1 b2 isC => rfl⟩
  · have h := (pyIn_iff _ _).mpr ho
    simp [should_comment_on_comment, h]
  · rcases ho with ho | ho <;>
    · have h := (pyIn_iff _ _).mpr ho
      simp [should_comment_on_post, h]

/-- Witness for the amended claim C3: concrete texts containing the marker
are suppressed by the comment and post policies. -/
theorem optout_suppresses_witness :
    should_comment_on_comment "This life! !nopost".data = false ∧
    should_comment_on_post "!NOPOST freedom".data "t".data = false :=
  ⟨optout_suppresses_amended.1 _ ((pyIn_iff _ _).mp (by decide)),
   optout_suppresses_amended.2.1 _ _ (Or.inl ((pyIn_iff _ _).mp (by decide)))⟩

/-- Claim C4: an inbox item receives a reply and is marked read exactly
when its standardized subject is `username mention` and it is a comment;
any letter case (and trailing punctuation) of the subject qualifies, and an
item with another subject or that is not a comment gets neither effect,
even when its body contains a keyword. -/
theorem mentions_eligibility_spec :
    (∀ message : InboxMessage,
      (listen_mentions_body message = ⟨true, true⟩ ↔
        (standardize_text message.subject = "username mention".data ∧
          message.isComment = true)) ∧
      (¬(standardize_text message.subject = "username mention".data ∧
          message.isComment = true) →
        listen_mentions_body message = ⟨false, false⟩)) ∧
    listen_mentions_body
      ⟨"USERNAME Mention!".data, "a human".data, true⟩ = ⟨true, true⟩ ∧
    listen_mentions_body
      ⟨"nice post about life".data, "this human life".data, true⟩ = ⟨false, false⟩ := by
  refine ⟨fun message => ⟨?_, ?_⟩, by decide, by decide⟩
  · unfold listen_mentions_body
    by_cases h : standardize_text message.subject = "username mention".data ∧
        message.isComment = true
    · simp [h]
    · simp [h]
  · intro h
    unfold listen_mentions_body
    simp [h]

/-- Witness for claim C4: an item with subject `post reply` gets no reply
and is not marked read. -/
theorem mentions_eligibility_witness :
    listen_mentions_body ⟨"post reply".data, "power human".data, true⟩ =
      ⟨false, false⟩ :=
  (mentions_eligibility_spec.1 _).2 (by decide)

/-- Claim C6: for every outcome of the random draw, the reply text composed
by `write_comment` is exactly one quote of `QUOTES` (which is duplicate
free) followed by the attribution footer, and the footer contains the
bot's account handle. -/
theorem write_comment_spec (r : Nat) (username : PyStr) :
    QUOTES.Nodup ∧
    ∃ q, q ∈ QUOTES ∧
      write_comment_text r username = some (q ++ footer_text username) ∧
      (∀ q2, write_comment_text r username = some (q2 ++ footer_text username) →
        q2 = q) ∧
      OccursIn username (footer_text username) := by
  refine ⟨by decide, ?_⟩
  have hlen : r % QUOTES.length < QUOTES.length := Nat.mod_lt _ (by decide)
  have hw : write_comment_text r username =
      some (QUOTES.get ⟨r % QUOTES.length, hlen⟩ ++ footer_text username) := by
    show (random_choice QUOTES r).map _ = _
    rw [show random_choice QUOTES r =
      some (QUOTES.get ⟨r % QUOTES.length, hlen⟩) from List.get?_eq_get hlen]
    rfl
  refine ⟨QUOTES.get ⟨r % QUOTES.length, hlen⟩, List.get_mem _ _ _, hw, ?_,
    "\n\n[^(source)](https://www.reddit.com/user/".data, ")".data, rfl⟩
  intro q2 h2
  have h3 := Option.some.inj (hw.symm.trans h2)
  exact (List.append_cancel_right h3).symm

/-- Erasing a non-triggering comment from the stream does not change the
replied-to comments. -/
theorem iterate_comments_run_skip (pre rest : List PyStr) (b : PyStr)
    (hb : should_comment_on_comment b = false) :
    iterate_comments_run (pre ++ b :: rest) = iterate_comments_run (pre ++ rest) := by
  induction pre with
  | nil => simp [iterate_comments_run, hb]
  | cons c cs ih => simp only [List.cons_append, iterate_comments_run, List.append_eq, ih]

/-- Every comment the comments watcher replies to triggers the policy. -/
theorem mem_iterate_comments_run (x : PyStr) (l : List PyStr)
    (hx : x ∈ iterate_comments_run l) : should_comment_on_comment x = true := by
  induction l with
  | nil => simp [iterate_comments_run] at hx
  | cons c cs ih =>
    by_cases h : should_comment_on_comment c = true
    · rw [show iterate_comments_run (c :: cs) =
          c :: iterate_comments_run cs by simp [iterate_comments_run, h]] at hx
      rcases List.mem_cons.mp hx with rfl | hx2
      · exact h
      · exact ih hx2
    · rw [show iterate_comments_run (c :: cs) =
          iterate_comments_run cs by simp [iterate_comments_run, h]] at hx
      exact ih hx

/-- Erasing a non-triggering post from the stream does not change the
replied-to posts. -/
theorem iterate_posts_run_skip (pre rest : List (PyStr × PyStr))
    (p : PyStr × PyStr) (hp : should_comment_on_post p.1 p.2 = false) :
    iterate_posts_run (pre ++ p :: rest) = iterate_posts_run (pre ++ rest) := by
  induction pre with
  | nil => simp [iterate_posts_run, hp]
  | cons c cs ih => simp only [List.cons_append, iterate_posts_run, List.append_eq, ih]

/-- Every post the posts watcher replies to triggers the policy. -/
theorem mem_iterate_posts_run (x : PyStr × PyStr) (l : List (PyStr × PyStr))
    (hx : x ∈ iterate_posts_run l) : should_comment_on_post x.1 x.2 = true := by
  induction l with
  | nil => simp [iterate_posts_run] at hx
  | cons c cs ih =>
    by_cases h : should_comment_on_post c.1 c.2 = true
    · rw [show iterate_posts_run (c :: cs) =
          c :: iterate_posts_run cs by simp [iterate_posts_run, h]] at hx
      rcases List.mem_cons.mp hx with rfl | hx2
      · exact h
      · exact ih hx2
    · rw [show iterate_posts_run (c :: cs) =
          iterate_posts_run cs by simp [iterate_posts_run, h]] at hx
      exact ih hx

/-- Claim C8: in the posts and comments watchers, an item on which the
trigger policy returns `false` receives no reply (it never appears among
the replied-to items) and the watcher continues with the rest of the
stream unchanged. -/
theorem watcher_no_reply_when_false :
    (∀ pre rest : List PyStr, ∀ b : PyStr,
      should_comment_on_comment b = false →
      iterate_comments_run (pre ++ b :: rest) = iterate_comments_run (pre ++ rest) ∧
      b ∉ iterate_comments_run (pre ++ b :: rest)) ∧
    (∀ pre rest : List (PyStr × PyStr), ∀ p : PyStr × PyStr,
      should_comment_on_post p.1 p.2 = false →
      iterate_posts_run (pre ++ p :: rest) = iterate_posts_run (pre ++ rest) ∧
      p ∉ iterate_posts_run (pre ++ p :: rest)) := by
  constructor
  · intro pre rest b hb
    refine ⟨iterate_comments_run_skip pre rest b hb, fun hmem => ?_⟩
    rw [mem_iterate_comments_run b _ hmem] at hb
    exact Bool.noConfusion hb
  · intro pre rest p hp
    refine ⟨iterate_posts_run_skip pre rest p hp, fun hmem => ?_⟩
    rw [mem_iterate_posts_run p _ hmem] at hp
    exact Bool.noConfusion hp

/-- Witness for claim C8: removing the non-triggering middle item leaves
the replied-to items of a concrete three-item stream unchanged. -/
theorem watcher_no_reply_witness :
    (iterate_comments_run
        ["Reality check".data, "nothing here".data, "the soul".data] =
      iterate_comments_run ["Reality check".data, "the soul".data] ∧
      "nothing here".data ∉ iterate_comments_run
        ["Reality check".data, "nothing here".data, "the soul".data]) ∧
    (iterate_posts_run [("".data, "about FREEDOM".data), ("".data, "x".data)] =
      iterate_posts_run [("".data, "about FREEDOM".data)] ∧
      ("".data, "x".data) ∉ iterate_posts_run
        [("".data, "about FREEDOM".data), ("".data, "x".data)]) :=
  ⟨watcher_no_reply_when_false.1 ["Reality check".data] ["the soul".data]
      "nothing here".data (by decide),
   watcher_no_reply_when_false.2 [("".data, "about FREEDOM".data)] []
      ("".data, "x".data) (by decide)⟩

end PradonBot
